import Mathlib

/-!
Verification development for the outbreak-traceability simulation frontend
(`src/frontend/src`) and its spec. JavaScript `number` values are modelled
as exact rationals (`ℚ`), `T | null` and optional fields as `Option`,
`Record<string, T>` as association lists, and the zustand stores as explicit
state-passing functions. Pieces of the engine that exist only behind the
HTTP API (traceback, convergence scoring, identification classification,
McNemar's test, DC lot-selection probabilities) are modelled from the spec;
their doc comments say so explicitly.
-/

namespace Outbreak

/-! ### Basic enumerations (src/frontend/src/api/types.ts) -/

/-- Enumeration `InventoryStrategy` from `api/types.ts`. -/
inductive InventoryStrategy where
  | FIFO
  | LIFO
  | ALL_IN_WINDOW
  | INVENTORY_WEIGHTED
deriving DecidableEq, Repr

/-- Tracing mode (`'deterministic' | 'probabilistic'` in `api/types.ts`). -/
inductive TraceMode where
  | deterministic
  | probabilistic
deriving DecidableEq, Repr

/-- Enumeration `IdentificationOutcome` from `api/types.ts`. -/
inductive IdentificationOutcome where
  | yes
  | no
  | inconclusive
deriving DecidableEq, Repr

/-- Animation mode of the investigation store (`investigationStore.ts`). -/
inductive AnimationMode where
  | deterministic
  | probabilistic
  | split
deriving DecidableEq, Repr

/-- Status union of the Monte Carlo store (`monteCarloStore.ts`). -/
inductive McStatus where
  | idle
  | running
  | completed
  | cancelled
  | error
deriving DecidableEq, Repr

/-! ### Configuration records (src/frontend/src/api/types.ts) -/

/-- Interface `SimulationConfig` from `api/types.ts`; `number` fields are
modelled as `ℚ`, `number | null` as `Option ℚ`. -/
structure SimulationConfig where
  numFarms : ℚ
  numPackers : ℚ
  numDistributionCenters : ℚ
  numRetailers : ℚ
  retailersWithDelisPct : ℚ
  contaminationRate : ℚ
  contaminationDurationDays : ℚ
  pathogen : String
  inventoryStrategy : InventoryStrategy
  dateWindowDays : ℚ
  simulationDays : ℚ
  randomSeed : Option ℚ
  interviewSuccessRate : ℚ
  recordCollectionWindowDays : ℚ
  numInvestigators : ℚ
  transitSpeedFactor : ℚ
  coolingHoldHours : ℚ
  dcInspectionHours : ℚ
  retailStockingDelayHours : ℚ
deriving DecidableEq, Repr

/-- Interface `MonteCarloConfig` from `api/types.ts`. -/
structure MonteCarloConfig where
  numFarms : ℚ
  numPackers : ℚ
  numDistributionCenters : ℚ
  numRetailers : ℚ
  retailersWithDelisPct : ℚ
  contaminationRate : ℚ
  contaminationDurationDays : ℚ
  pathogen : String
  inventoryStrategy : InventoryStrategy
  dateWindowDays : ℚ
  simulationDays : ℚ
  interviewSuccessRate : ℚ
  recordCollectionWindowDays : ℚ
  numIterations : ℚ
  baseRandomSeed : Option ℚ
deriving DecidableEq, Repr

/-- Constant `DEFAULT_MC_CONFIG` from `monteCarloStore.ts`. -/
def DEFAULT_MC_CONFIG : MonteCarloConfig :=
  { numFarms := 5
    numPackers := 2
    numDistributionCenters := 3
    numRetailers := 20
    retailersWithDelisPct := 3 / 10
    contaminationRate := 1
    contaminationDurationDays := 7
    pathogen := "Salmonella"
    inventoryStrategy := .FIFO
    dateWindowDays := 7
    simulationDays := 90
    interviewSuccessRate := 70
    recordCollectionWindowDays := 14
    numIterations := 1000
    baseRandomSeed := none }

/-- Field `maxMonteCarloIterations` of `DEFAULT_CONFIG` in the config store
(`configStore`), used by `MonteCarloControls` as the iteration slider bound. -/
def DEFAULT_MAX_MONTE_CARLO_ITERATIONS : ℚ := 10000

/-- Result of `simConfigToMcConfig` (`monteCarloStore.ts` lines 24-40): the
thirteen simulation parameters shared between the interactive panel and the
Monte Carlo batch (a `Partial<MonteCarloConfig>` containing exactly them). -/
structure McSharedParams where
  numFarms : ℚ
  numPackers : ℚ
  numDistributionCenters : ℚ
  numRetailers : ℚ
  retailersWithDelisPct : ℚ
  contaminationRate : ℚ
  contaminationDurationDays : ℚ
  pathogen : String
  inventoryStrategy : InventoryStrategy
  dateWindowDays : ℚ
  simulationDays : ℚ
  interviewSuccessRate : ℚ
  recordCollectionWindowDays : ℚ
deriving DecidableEq, Repr

/-- Function `simConfigToMcConfig` from `monteCarloStore.ts`. -/
def simConfigToMcConfig (simConfig : SimulationConfig) : McSharedParams :=
  { numFarms := simConfig.numFarms
    numPackers := simConfig.numPackers
    numDistributionCenters := simConfig.numDistributionCenters
    numRetailers := simConfig.numRetailers
    retailersWithDelisPct := simConfig.retailersWithDelisPct
    contaminationRate := simConfig.contaminationRate
    contaminationDurationDays := simConfig.contaminationDurationDays
    pathogen := simConfig.pathogen
    inventoryStrategy := simConfig.inventoryStrategy
    dateWindowDays := simConfig.dateWindowDays
    simulationDays := simConfig.simulationDays
    interviewSuccessRate := simConfig.interviewSuccessRate
    recordCollectionWindowDays := simConfig.recordCollectionWindowDays }

/-- Spread `{ ...config, ...patch }` of a `simConfigToMcConfig` result into a
`MonteCarloConfig`: every field present in the patch wins, the rest
(`numIterations`, `baseRandomSeed`) keep the old value. -/
def applySharedParams (config : MonteCarloConfig) (patch : McSharedParams) :
    MonteCarloConfig :=
  { numFarms := patch.numFarms
    numPackers := patch.numPackers
    numDistributionCenters := patch.numDistributionCenters
    numRetailers := patch.numRetailers
    retailersWithDelisPct := patch.retailersWithDelisPct
    contaminationRate := patch.contaminationRate
    contaminationDurationDays := patch.contaminationDurationDays
    pathogen := patch.pathogen
    inventoryStrategy := patch.inventoryStrategy
    dateWindowDays := patch.dateWindowDays
    simulationDays := patch.simulationDays
    interviewSuccessRate := patch.interviewSuccessRate
    recordCollectionWindowDays := patch.recordCollectionWindowDays
    numIterations := config.numIterations
    baseRandomSeed := config.baseRandomSeed }

/-! ### Monte Carlo result records (src/frontend/src/api/types.ts) -/

/-- Interface `HistogramBin` from `api/types.ts`. -/
structure HistogramBin where
  binStart : ℚ
  binEnd : ℚ
  count : ℚ
deriving DecidableEq, Repr

/-- Interface `MetricStatistics` from `api/types.ts`. -/
structure MetricStatistics where
  mean : ℚ
  std : ℚ
  min : ℚ
  max : ℚ
  median : ℚ
  p5 : ℚ
  p25 : ℚ
  p75 : ℚ
  p95 : ℚ
  histogram : List HistogramBin
deriving DecidableEq, Repr

/-- Interface `IdentificationStatistics` from `api/types.ts`;
`Record<number, number>` is modelled as an association list. -/
structure IdentificationStatistics where
  yesRate : ℚ
  noRate : ℚ
  inconclusiveRate : ℚ
  yesCount : ℚ
  noCount : ℚ
  inconclusiveCount : ℚ
  totalCount : ℚ
  rankDistribution : List (ℚ × ℚ)
  meanRank : ℚ
  medianRank : ℚ
deriving DecidableEq, Repr

/-- Interface `MonteCarloResult` from `api/types.ts`. -/
structure MonteCarloResult where
  monteCarloId : String
  config : MonteCarloConfig
  iterationsCompleted : ℚ
  iterationsFailed : ℚ
  farmScopeExpansion : MetricStatistics
  tlcScopeExpansion : MetricStatistics
  tlcsLocationExpansion : MetricStatistics
  pathExpansion : MetricStatistics
  detFarmsInScope : MetricStatistics
  detTlcsInScope : MetricStatistics
  detTlcsLocations : MetricStatistics
  probFarmsInScope : MetricStatistics
  probTlcsInScope : MetricStatistics
  probTlcsLocations : MetricStatistics
  totalCases : MetricStatistics
  deterministicIdentification : IdentificationStatistics
  probabilisticIdentification : IdentificationStatistics
  detInvestigationDays : Option MetricStatistics
  detInvestigationWorkHours : Option MetricStatistics
  probInvestigationDays : Option MetricStatistics
  probInvestigationWorkHours : Option MetricStatistics
  timingExpansion : Option MetricStatistics
  meanExpansion95CI : ℚ × ℚ
  identificationDifferenceSignificant : Bool
  identificationPValue : Option ℚ
deriving DecidableEq, Repr

/-! ### The Monte Carlo store (src/frontend/src/store/monteCarloStore.ts) -/

/-- State of `useMonteCarloStore` (`monteCarloStore.ts` lines 42-72). -/
structure McStoreState where
  config : MonteCarloConfig
  status : McStatus
  iterationsCompleted : ℚ
  iterationsTotal : ℚ
  progress : ℚ
  estimatedTimeRemaining : Option ℚ
  result : Option MonteCarloResult
  error : Option String
  monteCarloId : Option String
deriving DecidableEq, Repr

/-- Action `syncFromSimulationConfig` from `monteCarloStore.ts` lines 80-83:
`set((state) => ({ config: { ...state.config, ...simConfigToMcConfig(simConfig) } }))`. -/
def syncFromSimulationConfig (state : McStoreState) (simConfig : SimulationConfig) :
    McStoreState :=
  { state with config := applySharedParams state.config (simConfigToMcConfig simConfig) }

/-! ### The Monte Carlo API boundary (src/unnamed/part_012) -/

/-- Rounding of a rational to the nearest integer, ties to even — the
rounding direction IEEE 754 prescribes for binary64. -/
def roundNearestEven (q : ℚ) : ℤ :=
  let n := ⌊q⌋
  if q - n < 1 / 2 then n
  else if 1 / 2 < q - n then n + 1
  else if n % 2 = 0 then n else n + 1

/-- Rounding of an exact rational to the nearest IEEE 754 binary64 value
(53-bit significand, round-to-nearest-even), the result of every JavaScript
`number` arithmetic operation. The exponent is unbounded (no overflow or
subnormal handling), which agrees with binary64 on the normal range — all
magnitudes this program produces. -/
def roundDouble (x : ℚ) : ℚ :=
  if x = 0 then 0
  else (roundNearestEven (x / 2 ^ (Int.log 2 |x| - 52)) : ℚ)
    * 2 ^ (Int.log 2 |x| - 52)

/-- Payload built by `toApiConfig` (`part_012` lines 10-28); snake_case field
names as in the JSON body posted to `/monte-carlo/run`. -/
structure ApiMonteCarloConfig where
  num_farms : ℚ
  num_packers : ℚ
  num_distribution_centers : ℚ
  num_retailers : ℚ
  retailers_with_delis_pct : ℚ
  contamination_rate : ℚ
  contamination_duration_days : ℚ
  pathogen : String
  inventory_strategy : InventoryStrategy
  date_window_days : ℚ
  simulation_days : ℚ
  interview_success_rate : ℚ
  record_collection_window_days : ℚ
  num_iterations : ℚ
  base_random_seed : Option ℚ
deriving DecidableEq, Repr

/-- Function `toApiConfig` from `part_012`: serializes a `MonteCarloConfig`
into the snake_case API payload, dividing `interviewSuccessRate` by 100.
The JavaScript division is binary64 arithmetic, so the quotient is the
correctly rounded double `roundDouble (x / 100)`; all other fields are copied
without arithmetic. -/
def toApiConfig (config : MonteCarloConfig) : ApiMonteCarloConfig :=
  { num_farms := config.numFarms
    num_packers := config.numPackers
    num_distribution_centers := config.numDistributionCenters
    num_retailers := config.numRetailers
    retailers_with_delis_pct := config.retailersWithDelisPct
    contamination_rate := config.contaminationRate
    contamination_duration_days := config.contaminationDurationDays
    pathogen := config.pathogen
    inventory_strategy := config.inventoryStrategy
    date_window_days := config.dateWindowDays
    simulation_days := config.simulationDays
    interview_success_rate := roundDouble (config.interviewSuccessRate / 100)
    record_collection_window_days := config.recordCollectionWindowDays
    num_iterations := config.numIterations
    base_random_seed := config.baseRandomSeed }

/-- Field mapping applied by `monteCarloApi.getResult` (`part_012` lines
100-116) to the `config` sub-object of the result payload: camelCase fields
from snake_case, multiplying `interview_success_rate` by 100. The JavaScript
multiplication is binary64 arithmetic, so the product is the correctly
rounded double `roundDouble (y * 100)`; all other fields are copied without
arithmetic. -/
def parseApiConfig (config : ApiMonteCarloConfig) : MonteCarloConfig :=
  { numFarms := config.num_farms
    numPackers := config.num_packers
    numDistributionCenters := config.num_distribution_centers
    numRetailers := config.num_retailers
    retailersWithDelisPct := config.retailers_with_delis_pct
    contaminationRate := config.contamination_rate
    contaminationDurationDays := config.contamination_duration_days
    pathogen := config.pathogen
    inventoryStrategy := config.inventory_strategy
    dateWindowDays := config.date_window_days
    simulationDays := config.simulation_days
    interviewSuccessRate := roundDouble (config.interview_success_rate * 100)
    recordCollectionWindowDays := config.record_collection_window_days
    numIterations := config.num_iterations
    baseRandomSeed := config.base_random_seed }

/-! ### The investigation store (src/frontend/src/store/investigationStore.ts) -/

/-- Interface `TracebackStep` from `api/types.ts`. -/
structure TracebackStep where
  stepIndex : ℚ
  currentNodeId : String
  currentTlc : String
  probability : ℚ
  mode : TraceMode
  pathSoFar : List String
  branchingFactor : ℚ
deriving DecidableEq, Repr

/-- Interface `ConvergenceResult` from `api/types.ts` (lines 160-167). Note
that this record carries no exclusive-case count. -/
structure ConvergenceResult where
  farmId : String
  farmName : String
  casesConverging : ℚ
  tlcsConverging : List String
  convergenceProbability : ℚ
  confidenceScore : ℚ
deriving DecidableEq, Repr

/-- Ordering used by the comparator `(a, b) => b.confidenceScore - a.confidenceScore`
in `setConvergenceResults`: `a` may come before `b` when the comparator is
`≤ 0`, i.e. when `b.confidenceScore ≤ a.confidenceScore`. -/
def confGE (a b : ConvergenceResult) : Prop :=
  b.confidenceScore ≤ a.confidenceScore

instance : DecidableRel confGE := fun a b =>
  inferInstanceAs (Decidable (b.confidenceScore ≤ a.confidenceScore))

instance : IsTotal ConvergenceResult confGE :=
  ⟨fun a b => le_total b.confidenceScore a.confidenceScore⟩

instance : IsTrans ConvergenceResult confGE :=
  ⟨fun _ _ _ hab hbc => le_trans hbc hab⟩

/-- Model of `results.sort((a, b) => b.confidenceScore - a.confidenceScore)`:
ECMAScript `Array.prototype.sort` is required to be stable, and a stable sort
under a consistent comparator is the (unique) stable descending reordering,
realized here by insertion sort under `confGE`. -/
def sortConvergenceResults (results : List ConvergenceResult) :
    List ConvergenceResult :=
  List.insertionSort confGE results

/-- State of `useInvestigationStore` (`investigationStore.ts` lines 42-53).
`currentStep` and `totalSteps` are modelled as `ℤ` because the JavaScript
arithmetic (`state.totalSteps - 1`) can go negative. -/
structure InvestigationState where
  isPlaying : Bool
  currentStep : ℤ
  totalSteps : ℤ
  playbackSpeed : ℚ
  deterministicSteps : List TracebackStep
  probabilisticSteps : List TracebackStep
  activeMode : AnimationMode
  convergenceResults : List ConvergenceResult
  actualSourceFarmId : Option String
deriving DecidableEq, Repr

/-- Initial state of the investigation store (`investigationStore.ts` lines 43-52). -/
def initialInvestigationState : InvestigationState :=
  { isPlaying := false
    currentStep := 0
    totalSteps := 0
    playbackSpeed := 500
    deterministicSteps := []
    probabilisticSteps := []
    activeMode := .split
    convergenceResults := []
    actualSourceFarmId := none }

/-- Action `setConvergenceResults` from `investigationStore.ts` lines 65-68. -/
def setConvergenceResults (state : InvestigationState)
    (results : List ConvergenceResult) : InvestigationState :=
  { state with convergenceResults := sortConvergenceResults results }

/-- Actions of the investigation store (`investigationStore.ts` lines 54-108). -/
inductive InvestigationAction where
  | loadInvestigationData (deterministicSteps probabilisticSteps : List TracebackStep)
      (actualSourceFarmId : Option String)
  | setConvergenceResults (results : List ConvergenceResult)
  | play
  | pause
  | stepForward
  | stepBackward
  | goToStep (step : ℤ)
  | setPlaybackSpeed (speed : ℚ)
  | setActiveMode (mode : AnimationMode)
  | reset
  | clear

/-- One store action applied to a state, translated clause by clause from
`investigationStore.ts` lines 54-108 (`Math.min`/`Math.max` become
`min`/`max` on `ℤ`). -/
def investigationStep (state : InvestigationState) :
    InvestigationAction → InvestigationState
  | .loadInvestigationData d p src =>
      { state with
        deterministicSteps := d
        probabilisticSteps := p
        actualSourceFarmId := src
        totalSteps := ((max d.length p.length : ℕ) : ℤ)
        currentStep := 0
        isPlaying := false }
  | .setConvergenceResults results => setConvergenceResults state results
  | .play => { state with isPlaying := true }
  | .pause => { state with isPlaying := false }
  | .stepForward =>
      { state with currentStep := min (state.currentStep + 1) (state.totalSteps - 1) }
  | .stepBackward =>
      { state with currentStep := max (state.currentStep - 1) 0 }
  | .goToStep step =>
      { state with currentStep := max 0 (min step (state.totalSteps - 1)) }
  | .setPlaybackSpeed speed => { state with playbackSpeed := speed }
  | .setActiveMode mode => { state with activeMode := mode }
  | .reset => { state with currentStep := 0, isPlaying := false }
  | .clear =>
      { state with
        isPlaying := false
        currentStep := 0
        totalSteps := 0
        deterministicSteps := []
        probabilisticSteps := []
        convergenceResults := []
        actualSourceFarmId := none }

/-- Runs a sequence of investigation-store actions from the initial state. -/
def runInvestigation (actions : List InvestigationAction) : InvestigationState :=
  actions.foldl investigationStep initialInvestigationState

/-! ### The network store (src/frontend/src/store/networkStore.ts) -/

/-- Node type union from `api/types.ts`. -/
inductive NodeType where
  | farm
  | packer
  | distribution_center
  | processor
  | deli
  | retailer
deriving DecidableEq, Repr

/-- Interface `SupplyChainNode` from `api/types.ts` (lines 31-46); optional
fields become `Option`, and `fx?: number | null` becomes `Option (Option ℚ)`. -/
structure SupplyChainNode where
  id : String
  type : NodeType
  name : String
  city : String
  state : String
  x : Option ℚ
  y : Option ℚ
  fx : Option (Option ℚ)
  fy : Option (Option ℚ)
  isContaminated : Option Bool
  isContaminationSource : Option Bool
  contaminationProbability : Option ℚ
  isInScope : Option Bool
  scopeProbability : Option ℚ
deriving DecidableEq, Repr

/-- Action `markContaminatedNodes` from `networkStore.ts` lines 100-107; the
`probabilities` record is modelled as an association list, `??` as `Option.getD`
with the record lookup on the left. -/
def markContaminatedNodes (nodeIds : List String)
    (probabilities : List (String × ℚ)) (nodes : List SupplyChainNode) :
    List SupplyChainNode :=
  nodes.map fun node =>
    { node with
      isContaminated := some (nodeIds.contains node.id)
      contaminationProbability :=
        some ((probabilities.lookup node.id).getD
          (if nodeIds.contains node.id then 1 else 0)) }

/-! ### Monte Carlo configuration transitions (monteCarloStore.ts + MonteCarloControls) -/

/-- Transitions of the Monte Carlo configuration reachable in the program.
The only call sites that write the configuration are the two sliders of
`MonteCarloControls` (iteration slider bounded by `min := 10` and
`max := maxIterations`, seed slider mapping `0` to `null`) and
`syncFromSimulationConfig` on the Monte Carlo page; `startMonteCarlo`,
`cancelMonteCarlo` and `clearResult` never touch the configuration. -/
inductive McConfigStep (maxIterations : ℚ) : MonteCarloConfig → MonteCarloConfig → Prop
  | iterationSlider (config : MonteCarloConfig) (v : ℚ)
      (hmin : 10 ≤ v) (hmax : v ≤ maxIterations) :
      McConfigStep maxIterations config { config with numIterations := v }
  | seedSlider (config : MonteCarloConfig) (v : ℚ) :
      McConfigStep maxIterations config
        { config with baseRandomSeed := if v = 0 then none else some v }
  | sync (config : MonteCarloConfig) (simConfig : SimulationConfig) :
      McConfigStep maxIterations config
        (applySharedParams config (simConfigToMcConfig simConfig))

/-- Monte Carlo configurations reachable from the store's initial
configuration `DEFAULT_MC_CONFIG` through the program's transitions. -/
def McConfigReachable (maxIterations : ℚ) (config : MonteCarloConfig) : Prop :=
  Relation.ReflTransGen (McConfigStep maxIterations) DEFAULT_MC_CONFIG config

/-- Iteration count submitted by `startMonteCarlo`: the run posts
`toApiConfig(config)` whose `num_iterations` field carries
`config.numIterations`. -/
def submittedIterations (config : MonteCarloConfig) : ℚ :=
  (toApiConfig config).num_iterations

/-! ### Spec-modelled engine components

The simulation/investigation engine lives behind the HTTP API and is not part
of `src/`; the following definitions model it from the spec. -/

/-- Modelled from the spec: the fixed 5% identification-margin threshold of
§4.4 step 6 (the engine's classification code is not in `src/`). -/
def IDENTIFICATION_MARGIN_THRESHOLD : ℚ := 5 / 100

/-- Modelled from the spec: the margin between the top two ranked farms'
confidence scores (§4.4 step 6); a missing second farm contributes score 0. -/
def topTwoMargin (ranked : List (String × ℚ)) : ℚ :=
  ((ranked.get? 0).map Prod.snd).getD 0 - ((ranked.get? 1).map Prod.snd).getD 0

/-- Modelled from the spec: identification-outcome classification of §4.4
step 6, run once per tracing mode on that mode's ranked farm list (the
engine's classification code is not in `src/`). If the margin is within the
threshold the outcome is `inconclusive`; otherwise `yes` exactly when the
top-ranked farm is the true source. -/
def classifyIdentification (mode : TraceMode) (actualSourceFarmId : String)
    (ranked : List (String × ℚ)) : IdentificationOutcome :=
  match mode with
  | _ =>
    if topTwoMargin ranked ≤ IDENTIFICATION_MARGIN_THRESHOLD then .inconclusive
    else if (ranked.get? 0).map Prod.fst = some actualSourceFarmId then .yes
    else .no

/-- Modelled from the spec: a candidate incoming lot at a distribution
center, received within the trailing date window (§4.1); candidate lists are
ordered oldest first. -/
structure CandidateLot where
  tlc : String
  receivedDaysAgo : ℚ
  remainingQuantity : ℚ
deriving DecidableEq, Repr

/-- Modelled from the spec: the error raised for a DC shipment with zero
candidate lots in the date window (§4.1, `InsufficientInventoryError`). -/
inductive InsufficientInventoryError where
  | insufficientInventory
deriving DecidableEq, Repr

/-- Weights `[n, n-1, ..., 1]` as rationals. -/
def descVals : ℕ → List ℚ
  | 0 => []
  | k + 1 => ((k + 1 : ℕ) : ℚ) :: descVals k

/-- Modelled from the spec: un-normalized selection weights per inventory
strategy (§4.1) over a window of candidates ordered oldest first. FIFO favors
the oldest lot linearly down to near-zero at the newest edge, LIFO is its
mirror, ALL_IN_WINDOW is uniform, INVENTORY_WEIGHTED is proportional to
remaining on-hand quantity. -/
def lotWeights (strategy : InventoryStrategy) (candidates : List CandidateLot) :
    List ℚ :=
  match strategy with
  | .FIFO => descVals candidates.length
  | .LIFO => (descVals candidates.length).reverse
  | .ALL_IN_WINDOW => candidates.map fun _ => 1
  | .INVENTORY_WEIGHTED => candidates.map fun c => c.remainingQuantity

/-- Modelled from the spec: the selection-probability distribution a DC
computes for one outgoing shipment (§4.1; the engine code is not in `src/`).
A shipment with zero candidates in the window fails with
`InsufficientInventoryError`; otherwise each candidate's weight is normalized
by the total weight. -/
def sourceLotProbabilities (strategy : InventoryStrategy)
    (candidates : List CandidateLot) :
    Except InsufficientInventoryError (List (String × ℚ)) :=
  match candidates with
  | [] => .error .insufficientInventory
  | _ =>
    let weights := lotWeights strategy candidates
    let total := weights.sum
    .ok ((candidates.map fun c => c.tlc).zip (weights.map fun w => w / total))

/-- Modelled from the spec: one lot of the lot graph for backward traceback
(§3, §4.4 step 3; the engine code is not in `src/`). A farm-originated lot
carries its farm identifier and no upstream; otherwise `detSource` is the
single exact upstream lot index recorded in deterministic mode and
`probSources` the candidate upstream lot indices of probabilistic mode. -/
structure LotNode where
  farmOrigin : Option String
  detSource : Option ℕ
  probSources : List ℕ
deriving DecidableEq, Repr

/-- Construction invariant of §4.1/§8: the exact lot recorded in
deterministic mode is always among the probabilistic window candidates. -/
def detSourceAmongProbSources (lot : LotNode) : Bool :=
  match lot.detSource with
  | none => true
  | some j => lot.probSources.contains j

/-- Modelled from the spec: backward traceback (§4.4 step 3), walking the lot
graph from a lot back to farm-level lots and collecting the terminal farms.
Deterministic mode follows the single recorded source; probabilistic mode
expands every candidate source at every hop. The fuel argument bounds the
recursion depth; since a lot's sources are strictly earlier lots (§4.2), fuel
equal to the graph size is exhaustive. -/
def tracebackFarms (graph : List LotNode) (mode : TraceMode) :
    ℕ → ℕ → List String
  | 0, _ => []
  | fuel + 1, i =>
    match graph[i]? with
    | none => []
    | some lot =>
      match lot.farmOrigin with
      | some farmId => [farmId]
      | none =>
        match mode with
        | .deterministic =>
          match lot.detSource with
          | none => []
          | some j => tracebackFarms graph .deterministic fuel j
        | .probabilistic =>
          lot.probSources.flatMap fun j => tracebackFarms graph .probabilistic fuel j

/-- Modelled from the spec: `farmsInScope` of a scenario result (§6, §8) —
the number of distinct farms reached by backward traceback from the retail
lots collected during the investigation. -/
def farmsInScope (graph : List LotNode) (mode : TraceMode)
    (startLots : List ℕ) : ℕ :=
  (startLots.flatMap fun i => tracebackFarms graph mode graph.length i).toFinset.card

/-- Cumulative binomial probability `P(X ≤ k)` for `X ~ Binomial(n, 1/2)`,
over exact rationals. -/
def binomialHalfCdf (n k : ℕ) : ℚ :=
  (((List.range (k + 1)).map fun i => ((n.choose i : ℕ) : ℚ)).sum) / 2 ^ n

/-- Modelled from the spec: McNemar's test on paired identification outcomes
(§4.5; the statistical runner is not in `src/`). With `b` and `c` the two
discordant-pair counts, fewer than `minDiscordant` discordant pairs yields
`none` (the `null` p-value of `MonteCarloResult.identificationPValue`);
otherwise the exact two-sided binomial p-value, clipped to at most 1. -/
def mcnemarPValue (minDiscordant b c : ℕ) : Option ℚ :=
  if b + c < minDiscordant then none
  else some (min 1 (2 * binomialHalfCdf (b + c) (min b c)))

/-! ### Theorems -/

lemma int_log_two_eq {r : ℚ} {e : ℤ} (hr : 0 < r) (h1 : (2 : ℚ) ^ e ≤ r)
    (h2 : r < (2 : ℚ) ^ (e + 1)) : Int.log 2 r = e := by
  have h1n : ((2 : ℕ) : ℚ) ^ e ≤ r := by exact_mod_cast h1
  have h2n : r < ((2 : ℕ) : ℚ) ^ (e + 1) := by exact_mod_cast h2
  have hle := (Int.zpow_le_iff_le_log (by norm_num) hr).mp h1n
  have hlt := (Int.lt_zpow_iff_log_lt (by norm_num) hr).mp h2n
  omega

lemma roundDouble_eq {x : ℚ} {e m : ℤ} (hx : x ≠ 0) (hlog : Int.log 2 |x| = e)
    (hm : roundNearestEven (x / 2 ^ (e - 52)) = m) :
    roundDouble x = m * 2 ^ (e - 52) := by
  simp only [roundDouble, if_neg hx, hlog, hm]

lemma roundNearestEven_eq_add_one {q : ℚ} {n : ℤ} (hfl : ⌊q⌋ = n)
    (h1 : 1 / 2 < q - n) : roundNearestEven q = n + 1 := by
  simp only [roundNearestEven, hfl]
  rw [if_neg (by linarith), if_pos h1]

lemma roundNearestEven_intCast {q : ℚ} {n : ℤ} (hq : q = n) :
    roundNearestEven q = n := by
  subst hq
  simp [roundNearestEven]

/-- Double rounding of `55 / 100`: the binary64 value nearest to 0.55,
`0.55000000000000004440892098500626...`. -/
lemma roundDouble_55over100 :
    roundDouble ((55 : ℚ) / 100) = 2476979795053773 / 4503599627370496 := by
  have hfl : ⌊(24769797950537728 : ℚ) / 5⌋ = 4953959590107545 := by
    rw [Int.floor_eq_iff]
    norm_num
  have hrne : roundNearestEven ((11 / 20 : ℚ) / 2 ^ ((-1 : ℤ) - 52))
      = 4953959590107546 := by
    rw [show (11 / 20 : ℚ) / 2 ^ ((-1 : ℤ) - 52) = 24769797950537728 / 5 by
      norm_num]
    rw [roundNearestEven_eq_add_one hfl (by push_cast; norm_num)]
    norm_num
  have hlog : Int.log 2 |(11 / 20 : ℚ)| = -1 := by
    rw [abs_of_pos (by norm_num)]
    exact int_log_two_eq (by norm_num) (by norm_num) (by norm_num)
  rw [show (55 : ℚ) / 100 = 11 / 20 by norm_num,
    roundDouble_eq (by norm_num) hlog hrne]
  norm_num

/-- Double rounding of the double nearest 0.55 multiplied by 100: the
binary64 product is `55.00000000000000710542735760100185...`, printed by
JavaScript as `55.00000000000001`. -/
lemma roundDouble_55over100_times_100 :
    roundDouble ((2476979795053773 / 4503599627370496 : ℚ) * 100)
      = 7740561859543041 / 140737488355328 := by
  have hfl : ⌊(61924494876344325 : ℚ) / 8⌋ = 7740561859543040 := by
    rw [Int.floor_eq_iff]
    norm_num
  have hrne : roundNearestEven ((61924494876344325 / 1125899906842624 : ℚ)
      / 2 ^ ((5 : ℤ) - 52)) = 7740561859543041 := by
    rw [show (61924494876344325 / 1125899906842624 : ℚ) / 2 ^ ((5 : ℤ) - 52)
        = 61924494876344325 / 8 by norm_num]
    rw [roundNearestEven_eq_add_one hfl (by push_cast; norm_num)]
    norm_num
  have hlog : Int.log 2 |(61924494876344325 / 1125899906842624 : ℚ)| = 5 := by
    rw [abs_of_pos (by norm_num)]
    exact int_log_two_eq (by norm_num) (by norm_num) (by norm_num)
  rw [show (2476979795053773 / 4503599627370496 : ℚ) * 100
      = 61924494876344325 / 1125899906842624 by norm_num,
    roundDouble_eq (by norm_num) hlog hrne]
  norm_num

/-- Double rounding of `1 / 2` is exact: 0.5 is a binary64 value. -/
lemma roundDouble_half : roundDouble ((1 : ℚ) / 2) = 1 / 2 := by
  have hrne : roundNearestEven ((1 / 2 : ℚ) / 2 ^ ((-1 : ℤ) - 52))
      = 4503599627370496 := by
    refine roundNearestEven_intCast ?_
    push_cast
    norm_num
  have hlog : Int.log 2 |(1 / 2 : ℚ)| = -1 := by
    rw [abs_of_pos (by norm_num)]
    exact int_log_two_eq (by norm_num) (by norm_num) (by norm_num)
  rw [roundDouble_eq (by norm_num) hlog hrne]
  norm_num

/-- Double rounding of `50` is exact: 50 is a binary64 value. -/
lemma roundDouble_fifty : roundDouble (50 : ℚ) = 50 := by
  have hrne : roundNearestEven ((50 : ℚ) / 2 ^ ((5 : ℤ) - 52))
      = 7036874417766400 := by
    refine roundNearestEven_intCast ?_
    push_cast
    norm_num
  have hlog : Int.log 2 |(50 : ℚ)| = 5 := by
    rw [abs_of_pos (by norm_num)]
    exact int_log_two_eq (by norm_num) (by norm_num) (by norm_num)
  rw [roundDouble_eq (by norm_num) hlog hrne]
  norm_num

/-- C9 counterexample: the round-trip is not the identity under the
program's binary64 arithmetic. With `interviewSuccessRate = 55` (reachable —
the interview-rate slider moves in steps of 5), `toApiConfig` sends the
double nearest 0.55 and `getResult`'s multiply-by-100 returns
`7740561859543041 / 2^47 = 55.000000000000007...` (JavaScript's
`55.00000000000001`), not 55, so the parsed configuration differs from the
original. -/
theorem parseApiConfig_toApiConfig_counterexample :
    (parseApiConfig (toApiConfig
        { DEFAULT_MC_CONFIG with interviewSuccessRate := 55 })).interviewSuccessRate
      = 7740561859543041 / 140737488355328 ∧
    (7740561859543041 / 140737488355328 : ℚ) ≠ 55 ∧
    parseApiConfig (toApiConfig { DEFAULT_MC_CONFIG with interviewSuccessRate := 55 })
      ≠ { DEFAULT_MC_CONFIG with interviewSuccessRate := 55 } := by
  have hkey : (parseApiConfig (toApiConfig
      { DEFAULT_MC_CONFIG with interviewSuccessRate := 55 })).interviewSuccessRate
      = 7740561859543041 / 140737488355328 := by
    show roundDouble (roundDouble ((55 : ℚ) / 100) * 100) = _
    rw [roundDouble_55over100, roundDouble_55over100_times_100]
  refine ⟨hkey, by norm_num, fun h => ?_⟩
  have h2 := congrArg MonteCarloConfig.interviewSuccessRate h
  rw [hkey] at h2
  have h3 : (7740561859543041 / 140737488355328 : ℚ) = 55 := h2
  norm_num at h3

/-- C9 (amended): serializing a `MonteCarloConfig` with `toApiConfig` and
then applying the field mapping used by `getResult` returns a configuration
equal to the original in every field except `interviewSuccessRate`, which
carries the binary64 round-trip value `roundDouble (roundDouble (x/100) * 100)`;
that value coincides with the original for inputs whose quotient by 100 is a
binary64 value (e.g. 50) but not in general (55 maps to
`55.00000000000001`). -/
theorem parseApiConfig_toApiConfig_fields (config : MonteCarloConfig) :
    (parseApiConfig (toApiConfig config)).numFarms = config.numFarms ∧
    (parseApiConfig (toApiConfig config)).numPackers = config.numPackers ∧
    (parseApiConfig (toApiConfig config)).numDistributionCenters
      = config.numDistributionCenters ∧
    (parseApiConfig (toApiConfig config)).numRetailers = config.numRetailers ∧
    (parseApiConfig (toApiConfig config)).retailersWithDelisPct
      = config.retailersWithDelisPct ∧
    (parseApiConfig (toApiConfig config)).contaminationRate
      = config.contaminationRate ∧
    (parseApiConfig (toApiConfig config)).contaminationDurationDays
      = config.contaminationDurationDays ∧
    (parseApiConfig (toApiConfig config)).pathogen = config.pathogen ∧
    (parseApiConfig (toApiConfig config)).inventoryStrategy
      = config.inventoryStrategy ∧
    (parseApiConfig (toApiConfig config)).dateWindowDays = config.dateWindowDays ∧
    (parseApiConfig (toApiConfig config)).simulationDays = config.simulationDays ∧
    (parseApiConfig (toApiConfig config)).recordCollectionWindowDays
      = config.recordCollectionWindowDays ∧
    (parseApiConfig (toApiConfig config)).numIterations = config.numIterations ∧
    (parseApiConfig (toApiConfig config)).baseRandomSeed = config.baseRandomSeed ∧
    (parseApiConfig (toApiConfig config)).interviewSuccessRate
      = roundDouble (roundDouble (config.interviewSuccessRate / 100) * 100) ∧
    roundDouble (roundDouble ((50 : ℚ) / 100) * 100) = 50 := by
  refine ⟨rfl, rfl, rfl, rfl, rfl, rfl, rfl, rfl, rfl, rfl, rfl, rfl, rfl, rfl,
    rfl, ?_⟩
  rw [show (50 : ℚ) / 100 = 1 / 2 by norm_num, roundDouble_half,
    show (1 / 2 : ℚ) * 100 = 50 by norm_num]
  exact roundDouble_fifty

/-- C6: `syncFromSimulationConfig` overwrites exactly the thirteen shared
simulation parameters with the simulation configuration's values and leaves
`numIterations`, `baseRandomSeed`, and every non-config field of the store
unchanged. -/
theorem syncFromSimulationConfig_frame (state : McStoreState)
    (simConfig : SimulationConfig) :
    (syncFromSimulationConfig state simConfig).config.numFarms = simConfig.numFarms ∧
    (syncFromSimulationConfig state simConfig).config.numPackers = simConfig.numPackers ∧
    (syncFromSimulationConfig state simConfig).config.numDistributionCenters
      = simConfig.numDistributionCenters ∧
    (syncFromSimulationConfig state simConfig).config.numRetailers = simConfig.numRetailers ∧
    (syncFromSimulationConfig state simConfig).config.retailersWithDelisPct
      = simConfig.retailersWithDelisPct ∧
    (syncFromSimulationConfig state simConfig).config.contaminationRate
      = simConfig.contaminationRate ∧
    (syncFromSimulationConfig state simConfig).config.contaminationDurationDays
      = simConfig.contaminationDurationDays ∧
    (syncFromSimulationConfig state simConfig).config.pathogen = simConfig.pathogen ∧
    (syncFromSimulationConfig state simConfig).config.inventoryStrategy
      = simConfig.inventoryStrategy ∧
    (syncFromSimulationConfig state simConfig).config.dateWindowDays
      = simConfig.dateWindowDays ∧
    (syncFromSimulationConfig state simConfig).config.simulationDays
      = simConfig.simulationDays ∧
    (syncFromSimulationConfig state simConfig).config.interviewSuccessRate
      = simConfig.interviewSuccessRate ∧
    (syncFromSimulationConfig state simConfig).config.recordCollectionWindowDays
      = simConfig.recordCollectionWindowDays ∧
    (syncFromSimulationConfig state simConfig).config.numIterations
      = state.config.numIterations ∧
    (syncFromSimulationConfig state simConfig).config.baseRandomSeed
      = state.config.baseRandomSeed ∧
    (syncFromSimulationConfig state simConfig).status = state.status ∧
    (syncFromSimulationConfig state simConfig).iterationsCompleted
      = state.iterationsCompleted ∧
    (syncFromSimulationConfig state simConfig).iterationsTotal = state.iterationsTotal ∧
    (syncFromSimulationConfig state simConfig).progress = state.progress ∧
    (syncFromSimulationConfig state simConfig).estimatedTimeRemaining
      = state.estimatedTimeRemaining ∧
    (syncFromSimulationConfig state simConfig).result = state.result ∧
    (syncFromSimulationConfig state simConfig).error = state.error ∧
    (syncFromSimulationConfig state simConfig).monteCarloId = state.monteCarloId := by
  and_intros <;> rfl

/-- C2: for every investigation, in either tracing mode, whenever the margin
between the top two ranked farms' confidence scores is at most the fixed 5%
threshold, the identification outcome is `inconclusive`, regardless of which
farm is ranked first. -/
theorem classifyIdentification_inconclusive_of_small_margin (mode : TraceMode)
    (actualSourceFarmId : String) (ranked : List (String × ℚ))
    (h : topTwoMargin ranked ≤ IDENTIFICATION_MARGIN_THRESHOLD) :
    classifyIdentification mode actualSourceFarmId ranked = .inconclusive := by
  cases mode <;> simp [classifyIdentification, h]

/-- C2 witness: a concrete ranked list whose top-two margin is 0.03 ≤ 0.05,
with the true source ranked second, classifies as `inconclusive`. -/
theorem classifyIdentification_inconclusive_of_small_margin_witness :
    classifyIdentification .probabilistic "F2" [("F1", 3 / 5), ("F2", 57 / 100)]
      = .inconclusive :=
  classifyIdentification_inconclusive_of_small_margin .probabilistic "F2"
    [("F1", 3 / 5), ("F2", 57 / 100)]
    (by norm_num [topTwoMargin, IDENTIFICATION_MARGIN_THRESHOLD, List.get?])

/-- C5: McNemar's test on paired identification outcomes returns a null
p-value exactly when the number of discordant pairs is below the configured
minimum, and otherwise returns a p-value in `[0, 1]`. -/
theorem mcnemarPValue_null_or_unit_interval (minDiscordant b c : ℕ) :
    (mcnemarPValue minDiscordant b c = none ↔ b + c < minDiscordant) ∧
    ∀ p : ℚ, mcnemarPValue minDiscordant b c = some p → 0 ≤ p ∧ p ≤ 1 := by
  unfold mcnemarPValue
  by_cases h : b + c < minDiscordant
  · simp [h]
  · simp only [h, if_false, iff_false]
    refine ⟨by simp [h], ?_⟩
    rintro p hp
    obtain rfl : min 1 (2 * binomialHalfCdf (b + c) (min b c)) = p :=
      Option.some.injEq _ _ ▸ hp
    constructor
    · refine le_min (by norm_num) ?_
      have hsum : (0 : ℚ) ≤
          (((List.range (min b c + 1)).map
            fun i => (((b + c).choose i : ℕ) : ℚ)).sum) := by
        refine List.sum_nonneg ?_
        intro x hx
        simp only [List.mem_map] at hx
        obtain ⟨i, _, rfl⟩ := hx
        positivity
      have h2 : (0 : ℚ) < 2 ^ (b + c) := by positivity
      unfold binomialHalfCdf
      positivity
    · exact min_le_left _ _

/-- Evaluation used by the C5 witness: the exact two-sided p-value at
discordant counts 6 and 5 is 1. -/
lemma mcnemarPValue_ten_six_five : mcnemarPValue 10 6 5 = some 1 := by
  have hchoose :
      ((List.range (5 + 1)).map fun i => ((Nat.choose (6 + 5) i : ℕ) : ℚ)).sum
        = 1024 := by
    simp only [List.range_succ, List.range_zero, List.map_append, List.map_cons,
      List.map_nil, List.sum_append, List.sum_cons, List.sum_nil]
    norm_num [Nat.choose]
  unfold mcnemarPValue
  rw [if_neg (by norm_num)]
  unfold binomialHalfCdf
  norm_num [hchoose]

/-- C5 witness: with minimum 10 and discordant counts 6 and 5 (11 ≥ 10
discordant pairs), the test produces the p-value 1, which lies in `[0, 1]`. -/
theorem mcnemarPValue_null_or_unit_interval_witness :
    mcnemarPValue 10 6 5 = some 1 ∧ (0 : ℚ) ≤ 1 ∧ (1 : ℚ) ≤ 1 :=
  ⟨mcnemarPValue_ten_six_five,
   (mcnemarPValue_null_or_unit_interval 10 6 5).2 1 mcnemarPValue_ten_six_five⟩

/-- Convergence record for farm `F1` used in the C1 analysis; its confidence
score ties with `convRecordF2`. -/
def convRecordF1 : ConvergenceResult :=
  { farmId := "F1"
    farmName := "Farm 1"
    casesConverging := 3
    tlcsConverging := []
    convergenceProbability := 1
    confidenceScore := 1 }

/-- Convergence record for farm `F2` used in the C1 analysis; its confidence
score ties with `convRecordF1`. -/
def convRecordF2 : ConvergenceResult :=
  { farmId := "F2"
    farmName := "Farm 2"
    casesConverging := 3
    tlcsConverging := []
    convergenceProbability := 1
    confidenceScore := 1 }

/-- C1 counterexample: `setConvergenceResults` applies no tie-break at all —
two records with equal confidence scores keep their input order, so with farm
`F2` listed before farm `F1` the output ranks `F2` first (against the claimed
farm-identifier tie-break), and the two input orders of the same records
produce different rankings, refuting unique determination. -/
theorem setConvergenceResults_tiebreak_counterexample :
    (sortConvergenceResults [convRecordF2, convRecordF1]).map ConvergenceResult.farmId
      = ["F2", "F1"] ∧
    (sortConvergenceResults [convRecordF1, convRecordF2]).map ConvergenceResult.farmId
      = ["F1", "F2"] ∧
    sortConvergenceResults [convRecordF2, convRecordF1]
      ≠ sortConvergenceResults [convRecordF1, convRecordF2] := by
  refine ⟨rfl, rfl, ?_⟩
  decide

/-- C1 (amended): `setConvergenceResults` ranks convergence records in
descending order of confidence score with a stable sort: the stored list is a
permutation of the input sorted by descending `confidenceScore`, and any pair
already ordered by descending score — in particular any tied pair — keeps its
relative input order; no exclusive-case or farm-identifier tie-break is
applied, so the order of tied records depends on the input order. -/
theorem setConvergenceResults_sorted_stable (results : List ConvergenceResult) :
    (∀ state : InvestigationState,
      (setConvergenceResults state results).convergenceResults
        = sortConvergenceResults results) ∧
    (sortConvergenceResults results).Perm results ∧
    (sortConvergenceResults results).Sorted confGE ∧
    ∀ a b : ConvergenceResult, confGE a b → List.Sublist [a, b] results →
      List.Sublist [a, b] (sortConvergenceResults results) :=
  ⟨fun _ => rfl, List.perm_insertionSort confGE results,
   List.sorted_insertionSort confGE results,
   fun _ _ hab hsub => List.pair_sublist_insertionSort hab hsub⟩

/-- C1 witness: for the tied pair `convRecordF1`, `convRecordF2` given in that
input order, the stored ranking keeps `F1` before `F2`. -/
theorem setConvergenceResults_sorted_stable_witness :
    List.Sublist [convRecordF1, convRecordF2]
      (sortConvergenceResults [convRecordF1, convRecordF2]) :=
  (setConvergenceResults_sorted_stable [convRecordF1, convRecordF2]).2.2.2
    convRecordF1 convRecordF2 (le_refl _) (List.Sublist.refl _)

/-- Invariant of the investigation store maintained by every action: the
current step stays in `[-1, max 0 (totalSteps - 1)]`, the step total is
nonnegative, and the value `-1` can only occur while the step total is 0. -/
def investigationInvariant (s : InvestigationState) : Prop :=
  -1 ≤ s.currentStep ∧ s.currentStep ≤ max 0 (s.totalSteps - 1) ∧
  0 ≤ s.totalSteps ∧ (s.currentStep = -1 → s.totalSteps = 0)

lemma investigationStep_preserves_invariant (s : InvestigationState)
    (a : InvestigationAction) (h : investigationInvariant s) :
    investigationInvariant (investigationStep s a) := by
  obtain ⟨h1, h2, h3, h4⟩ := h
  cases a with
  | loadInvestigationData d p src =>
    refine ⟨by norm_num [investigationStep], ?_, ?_, by norm_num [investigationStep]⟩
    · simp only [investigationStep]
      exact le_max_left _ _
    · simp only [investigationStep]
      positivity
  | setConvergenceResults results => exact ⟨h1, h2, h3, h4⟩
  | play => exact ⟨h1, h2, h3, h4⟩
  | pause => exact ⟨h1, h2, h3, h4⟩
  | stepForward =>
    simp only [investigationInvariant, investigationStep]
    omega
  | stepBackward =>
    simp only [investigationInvariant, investigationStep]
    omega
  | goToStep step =>
    simp only [investigationInvariant, investigationStep]
    omega
  | setPlaybackSpeed speed => exact ⟨h1, h2, h3, h4⟩
  | setActiveMode mode => exact ⟨h1, h2, h3, h4⟩
  | reset =>
    simp only [investigationInvariant, investigationStep]
    omega
  | clear =>
    simp only [investigationInvariant, investigationStep]
    omega

lemma runInvestigation_invariant (actions : List InvestigationAction) :
    investigationInvariant (runInvestigation actions) := by
  suffices h : ∀ s, investigationInvariant s →
      investigationInvariant (actions.foldl investigationStep s) by
    exact h initialInvestigationState (by norm_num [investigationInvariant,
      initialInvestigationState])
  induction actions with
  | nil => exact fun s hs => hs
  | cons a rest ih =>
    intro s hs
    exact ih _ (investigationStep_preserves_invariant s a hs)

/-- C8 counterexample: from the initial state (both step lists empty, hence
`totalSteps = 0`), a single `stepForward` sets
`currentStep = min(0 + 1, 0 - 1) = -1`, violating the claimed lower bound
`0 ≤ currentStep`. -/
theorem stepForward_underflow_counterexample :
    (runInvestigation [.stepForward]).currentStep = -1 ∧
    ¬(0 ≤ (runInvestigation [.stepForward]).currentStep) := by
  decide

/-- C8 (amended): after any sequence of investigation-store actions,
`currentStep` satisfies `-1 ≤ currentStep ≤ max 0 (totalSteps - 1)`, and the
lower bound `0` can only be undercut (by `stepForward`) while
`totalSteps = 0`; with at least one loaded step the claimed bounds
`0 ≤ currentStep ≤ totalSteps - 1` hold. -/
theorem investigationStore_currentStep_bounds (actions : List InvestigationAction) :
    -1 ≤ (runInvestigation actions).currentStep ∧
    (runInvestigation actions).currentStep
      ≤ max 0 ((runInvestigation actions).totalSteps - 1) ∧
    ((runInvestigation actions).currentStep = -1 →
      (runInvestigation actions).totalSteps = 0) := by
  obtain ⟨h1, h2, _, h4⟩ := runInvestigation_invariant actions
  exact ⟨h1, h2, h4⟩

/-- C8 witness: after the single action `stepForward`, the step counter is
`-1` and the theorem's implication yields `totalSteps = 0`. -/
theorem investigationStore_currentStep_bounds_witness :
    (runInvestigation [.stepForward]).totalSteps = 0 :=
  (investigationStore_currentStep_bounds [.stepForward]).2.2 (by decide)

/-- C10: `markContaminatedNodes` maps the node list pointwise: each node's
`isContaminated` becomes true exactly when its id is listed,
`contaminationProbability` becomes the probability map's value when present
and otherwise 1 for listed and 0 for unlisted nodes, and every other field of
every node is unchanged. -/
theorem markContaminatedNodes_spec (nodeIds : List String)
    (probabilities : List (String × ℚ)) (nodes : List SupplyChainNode) :
    List.Forall₂ (fun node node' =>
      node'.id = node.id ∧ node'.type = node.type ∧ node'.name = node.name ∧
      node'.city = node.city ∧ node'.state = node.state ∧
      node'.x = node.x ∧ node'.y = node.y ∧ node'.fx = node.fx ∧
      node'.fy = node.fy ∧
      node'.isContaminationSource = node.isContaminationSource ∧
      node'.isInScope = node.isInScope ∧
      node'.scopeProbability = node.scopeProbability ∧
      (node'.isContaminated = some true ↔ node.id ∈ nodeIds) ∧
      node'.contaminationProbability =
        some ((probabilities.lookup node.id).getD
          (if node.id ∈ nodeIds then 1 else 0)))
      nodes (markContaminatedNodes nodeIds probabilities nodes) := by
  induction nodes with
  | nil => exact List.Forall₂.nil
  | cons n ns ih =>
    refine List.Forall₂.cons ?_ ih
    refine ⟨rfl, rfl, rfl, rfl, rfl, rfl, rfl, rfl, rfl, rfl, rfl, rfl, ?_, ?_⟩
    · by_cases h : n.id ∈ nodeIds <;>
        simp [markContaminatedNodes, h, List.elem_iff]
    · by_cases h : n.id ∈ nodeIds <;>
        simp [markContaminatedNodes, h, List.elem_iff]

lemma list_sum_map_div (l : List ℚ) (c : ℚ) :
    (l.map fun w => w / c).sum = l.sum / c := by
  induction l with
  | nil => simp
  | cons x xs ih => simp [ih, add_div]

lemma descVals_length (n : ℕ) : (descVals n).length = n := by
  induction n with
  | zero => rfl
  | succ k ih => simp [descVals, ih]

lemma descVals_pos {n : ℕ} {w : ℚ} (hw : w ∈ descVals n) : 0 < w := by
  induction n with
  | zero => simp [descVals] at hw
  | succ k ih =>
    rcases (by simpa [descVals] using hw : w = ((k + 1 : ℕ) : ℚ) ∨ w ∈ descVals k)
      with h | h
    · subst h
      positivity
    · exact ih h

lemma lotWeights_length (strategy : InventoryStrategy) (candidates : List CandidateLot) :
    (lotWeights strategy candidates).length = candidates.length := by
  cases strategy <;> simp [lotWeights, descVals_length]

lemma lotWeights_pos (strategy : InventoryStrategy) (candidates : List CandidateLot)
    (hq : ∀ c ∈ candidates, 0 < c.remainingQuantity) :
    ∀ w ∈ lotWeights strategy candidates, 0 < w := by
  intro w hw
  cases strategy with
  | FIFO => exact descVals_pos hw
  | LIFO => exact descVals_pos (List.mem_reverse.mp hw)
  | ALL_IN_WINDOW =>
    obtain ⟨c, _, rfl⟩ := List.mem_map.mp hw
    norm_num
  | INVENTORY_WEIGHTED =>
    obtain ⟨c, hc, rfl⟩ := List.mem_map.mp hw
    exact hq c hc

/-- C3: a distribution-center shipment with zero candidate lots in the date
window fails with `InsufficientInventoryError` rather than being silently
dropped, and for any nonempty candidate list (with positive on-hand
quantities) the computed source-lot selection probabilities sum to 1, for
every inventory strategy. -/
theorem sourceLotProbabilities_sum_one_or_error (strategy : InventoryStrategy) :
    sourceLotProbabilities strategy [] = .error .insufficientInventory ∧
    ∀ candidates : List CandidateLot, candidates ≠ [] →
      (∀ c ∈ candidates, 0 < c.remainingQuantity) →
      ∃ probs, sourceLotProbabilities strategy candidates = .ok probs ∧
        (probs.map Prod.snd).sum = 1 := by
  constructor
  · rfl
  · intro candidates hne hq
    obtain ⟨x, xs, rfl⟩ := List.exists_cons_of_ne_nil hne
    have hpos := lotWeights_pos strategy (x :: xs) hq
    have hlen : (lotWeights strategy (x :: xs)).length = (x :: xs).length :=
      lotWeights_length strategy (x :: xs)
    have hwne : lotWeights strategy (x :: xs) ≠ [] :=
      List.ne_nil_of_length_pos (by simp [hlen])
    have htot : 0 < (lotWeights strategy (x :: xs)).sum :=
      List.sum_pos _ hpos hwne
    refine ⟨_, rfl, ?_⟩
    rw [List.map_snd_zip _ _ (by simp [hlen]), list_sum_map_div,
      div_self (ne_of_gt htot)]

/-- C3 witness: under FIFO, two candidate lots with positive quantities yield
a probability distribution summing to 1. -/
theorem sourceLotProbabilities_sum_one_or_error_witness :
    ∃ probs,
      sourceLotProbabilities .FIFO
        [{ tlc := "TLC-A", receivedDaysAgo := 5, remainingQuantity := 40 },
         { tlc := "TLC-B", receivedDaysAgo := 2, remainingQuantity := 60 }]
        = .ok probs ∧ (probs.map Prod.snd).sum = 1 :=
  (sourceLotProbabilities_sum_one_or_error .FIFO).2
    [{ tlc := "TLC-A", receivedDaysAgo := 5, remainingQuantity := 40 },
     { tlc := "TLC-B", receivedDaysAgo := 2, remainingQuantity := 60 }]
    (by simp) (by intro c hc
                  rcases (by simpa using hc) with h | h <;> subst h <;> norm_num)

lemma tracebackFarms_det_subset_prob (graph : List LotNode)
    (hdp : ∀ lot ∈ graph, detSourceAmongProbSources lot = true) :
    ∀ (fuel i : ℕ) (f : String), f ∈ tracebackFarms graph .deterministic fuel i →
      f ∈ tracebackFarms graph .probabilistic fuel i := by
  intro fuel
  induction fuel with
  | zero => intro i f hf; simp [tracebackFarms] at hf
  | succ fuel ih =>
    intro i f hf
    unfold tracebackFarms at hf ⊢
    cases hg : graph[i]? with
    | none =>
      simp [hg] at hf
    | some lot =>
      rw [hg] at hf
      dsimp only at hf ⊢
      cases ho : lot.farmOrigin with
      | some farmId =>
        rw [ho] at hf
        exact hf
      | none =>
        rw [ho] at hf
        dsimp only at hf ⊢
        cases hd : lot.detSource with
        | none =>
          simp [hd] at hf
        | some j =>
          rw [hd] at hf
          dsimp only at hf
          have hj : j ∈ lot.probSources := by
            have hw := hdp lot (List.getElem?_mem hg)
            unfold detSourceAmongProbSources at hw
            rw [hd] at hw
            exact List.elem_iff.mp hw
          exact List.mem_flatMap.mpr ⟨j, hj, ih j f hf⟩

/-- C4: for every lot graph in which the deterministically recorded source of
each lot is among its probabilistic window candidates (the construction
invariant of the date-window estimation), the number of farms in scope under
probabilistic tracing is at least the number under deterministic tracing,
because every deterministic traceback path is also a probabilistic path. -/
theorem farmsInScope_det_le_prob (graph : List LotNode) (startLots : List ℕ)
    (hdp : ∀ lot ∈ graph, detSourceAmongProbSources lot = true) :
    farmsInScope graph .deterministic startLots
      ≤ farmsInScope graph .probabilistic startLots := by
  unfold farmsInScope
  refine Finset.card_le_card ?_
  intro f hf
  rw [List.mem_toFinset, List.mem_flatMap] at hf ⊢
  obtain ⟨i, hi, hfi⟩ := hf
  exact ⟨i, hi, tracebackFarms_det_subset_prob graph hdp graph.length i f hfi⟩

/-- C4 witness: a three-lot graph (two farm lots and one packer lot whose
deterministic source, lot 0, is among its probabilistic candidates 0 and 1)
has deterministic farm scope 1 and probabilistic farm scope 2. -/
theorem farmsInScope_det_le_prob_witness :
    farmsInScope
      [{ farmOrigin := some "Farm A", detSource := none, probSources := [] },
       { farmOrigin := some "Farm B", detSource := none, probSources := [] },
       { farmOrigin := none, detSource := some 0, probSources := [0, 1] }]
      .deterministic [2]
    ≤ farmsInScope
      [{ farmOrigin := some "Farm A", detSource := none, probSources := [] },
       { farmOrigin := some "Farm B", detSource := none, probSources := [] },
       { farmOrigin := none, detSource := some 0, probSources := [0, 1] }]
      .probabilistic [2] :=
  farmsInScope_det_le_prob _ [2] (by decide)

/-- C7: every Monte Carlo configuration reachable through the program's
transitions (the bounded iteration slider, the seed slider, and
`syncFromSimulationConfig`) submits, when a run is started, an iteration
count that is at most the operator-configured maximum, provided the store's
default iteration count respects that maximum (it does for the default
maximum of 10000). -/
theorem startMonteCarlo_iterations_le_max (maxIterations : ℚ)
    (config : MonteCarloConfig)
    (hdefault : DEFAULT_MC_CONFIG.numIterations ≤ maxIterations)
    (hreach : McConfigReachable maxIterations config) :
    submittedIterations config ≤ maxIterations := by
  induction hreach with
  | refl => exact hdefault
  | tail _ step ih =>
    cases step with
    | iterationSlider v hmin hmax => exact hmax
    | seedSlider v => exact ih
    | sync simConfig => exact ih

/-- C7 witness: with the default maximum of 10000, the configuration reached
from the defaults by moving the iteration slider to 5000 submits at most
10000 iterations. -/
theorem startMonteCarlo_iterations_le_max_witness :
    submittedIterations { DEFAULT_MC_CONFIG with numIterations := 5000 }
      ≤ DEFAULT_MAX_MONTE_CARLO_ITERATIONS :=
  startMonteCarlo_iterations_le_max DEFAULT_MAX_MONTE_CARLO_ITERATIONS
    { DEFAULT_MC_CONFIG with numIterations := 5000 }
    (by norm_num [DEFAULT_MC_CONFIG, DEFAULT_MAX_MONTE_CARLO_ITERATIONS])
    (Relation.ReflTransGen.single
      (McConfigStep.iterationSlider DEFAULT_MC_CONFIG 5000 (by norm_num)
        (by norm_num [DEFAULT_MAX_MONTE_CARLO_ITERATIONS])))

end Outbreak
